import Mathlib

/-!
Shallow embedding of the restock/reorder decision engine of
`src/restock_recommender.py`: the sales aggregator (`parse_sales_data`),
the inventory snapshot (`parse_inventory_data`), the reorder decision
engine and ranker (`generate_restock_recommendations`), and the run
composition of the `__main__` block.

Python rationale for the modelling choices:
* CSV rows are dictionaries whose values may be a string, `None`
  (a short row padded by `csv.DictReader`), or absent entirely (the
  column is not in the header, so `dict.get` returns the default).
* Python `float` arithmetic is modelled with `ℚ`; the Python infinite float is an
  explicit constructor of `DaysOfSupply`.
* `datetime.fromisoformat` is abstracted as a parameter
  `fromiso : String → Option PyDateTime`; the code only ever uses the
  `.date()` projection of its result.
-/

/-- A calendar date, as produced by Python `datetime.date()`. -/
structure PyDate where
  year : Int
  month : Int
  day : Int
deriving DecidableEq

/-- A datetime, as produced by `datetime.fromisoformat`; the program only
reads its `.date()` projection. -/
structure PyDateTime where
  date : PyDate
deriving DecidableEq

/-- The value a `csv.DictReader` row associates to a column name:
the column may be absent from the header (`missing`, so `dict.get`
returns its default), present with value `None` (`null`, a short row),
or an actual string. -/
inductive RowField where
  | missing
  | null
  | str (s : String)
deriving DecidableEq

/-- Python truthiness of a row field: only a non-empty string is truthy. -/
def RowField.truthy : RowField → Bool
  | .str s => s ≠ ""
  | _ => false

/-- Characters of a string with surrounding whitespace removed, as Python
`int()` does before parsing. -/
def trimChars (l : List Char) : List Char :=
  ((l.dropWhile Char.isWhitespace).reverse.dropWhile Char.isWhitespace).reverse

/-- Value of a non-empty all-digit character list. -/
def digitsVal (cs : List Char) : Option Nat :=
  if cs ≠ [] ∧ cs.all Char.isDigit then
    some (cs.foldl (fun n c => 10 * n + (c.toNat - 48)) 0)
  else none

/-- Python `int(s)` on a string: optional sign followed by decimal digits,
surrounding whitespace allowed; `none` models `ValueError`. -/
def pyParseInt (s : String) : Option Int :=
  match trimChars s.data with
  | '-' :: rest => (digitsVal rest).map (fun n => -(n : Int))
  | '+' :: rest => (digitsVal rest).map (fun n => (n : Int))
  | cs => (digitsVal cs).map (fun n => (n : Int))

/-- Outcome of Python `int(row.get(col, 0))` on a row field. -/
inductive IntResult where
  | ok (n : Int)
  | valueError
  | typeError
deriving DecidableEq

/-- Python `int(row.get(col, 0))`: a missing column yields the default
`0` (already an int), a `None` value raises `TypeError`, and a string
either parses or raises `ValueError`. -/
def pyIntOfField : RowField → IntResult
  | .missing => .ok 0
  | .null => .typeError
  | .str s =>
    match pyParseInt s with
    | some n => .ok n
    | none => .valueError

/-- Python dict assignment `m[k] = v`: overwrite in place if the key
exists, otherwise append (dicts preserve insertion order). -/
def pyDictSet (m : List (String × α)) (k : String) (v : α) : List (String × α) :=
  match m with
  | [] => [(k, v)]
  | (k₀, v₀) :: rest =>
    if k₀ = k then (k₀, v) :: rest else (k₀, v₀) :: pyDictSet rest k v

/-- Python `m.get(k)` on an insertion-ordered dict (keys are unique,
so the first match is the binding). -/
def dictGet (m : List (String × α)) (k : String) : Option α :=
  match m with
  | [] => none
  | (k₀, v) :: rest => if k₀ = k then some v else dictGet rest k

/-- Python string replace of the pattern +00:00 by the empty string:
remove every non-overlapping, left-to-right occurrence of the UTC
offset suffix. -/
def stripUTC : List Char → List Char
  | '+' :: '0' :: '0' :: ':' :: '0' :: '0' :: rest => stripUTC rest
  | c :: rest => c :: stripUTC rest
  | [] => []

/-- String form of `stripUTC`, modelling the replace call applied to
the purchase-date string. -/
def pyReplaceUTC (s : String) : String :=
  String.mk (stripUTC s.data)

/-- One raw sales row, keyed by the columns the program reads. -/
structure SalesRow where
  order_status : RowField
  sku : RowField
  quantity : RowField
  purchase_date : RowField
deriving DecidableEq

/-- Per-sku velocity statistics: `{"total_quantity": ..., "days_sold": set(...)}`.
The Python set of dates is modelled as a duplicate-free list. -/
structure SalesInfo where
  total_quantity : Int
  days_sold : List PyDate
deriving DecidableEq

/-- Python `set.add` on the modelled date set. -/
def dayInsert (d : PyDate) (l : List PyDate) : List PyDate :=
  if d ∈ l then l else l ++ [d]

/-- The sales-velocity mapping (`defaultdict` keyed by sku, in insertion order). -/
abbrev VelocityMap := List (String × SalesInfo)

/-- The accumulation performed for an admitted sales row:
`sales_velocity[sku]["total_quantity"] += quantity` and
`sales_velocity[sku]["days_sold"].add(sale_date.date())`, where the
`defaultdict` supplies `{0, ∅}` on first sighting of the sku. -/
def salesUpdate (m : VelocityMap) (sku : String) (q : Int) (d : PyDate) : VelocityMap :=
  let info := (dictGet m sku).getD ⟨0, []⟩
  pyDictSet m sku ⟨info.total_quantity + q, dayInsert d info.days_sold⟩

/-- One iteration of the row loop of `parse_sales_data`, with the
original early-`continue` control flow. -/
def salesStep (fromiso : String → Option PyDateTime) (m : VelocityMap) (row : SalesRow) :
    VelocityMap :=
  if row.order_status ≠ RowField.str "Shipped" then m
  else
    match pyIntOfField row.quantity with
    | .ok q =>
      match row.sku, row.purchase_date with
      | RowField.str sku, RowField.str ds =>
        if sku ≠ "" ∧ q > 0 ∧ ds ≠ "" then
          match fromiso (pyReplaceUTC ds) with
          | some dt => salesUpdate m sku q dt.date
          | none => m
        else m
      | _, _ => m
    | _ => m

/-- The row loop of `parse_sales_data` over an already-read file. -/
def parse_sales_rows (fromiso : String → Option PyDateTime) (rows : List SalesRow) :
    VelocityMap :=
  rows.foldl (salesStep fromiso) []

/-- Whole `parse_sales_data`: `none` at the argument models an
unreadable source (`FileNotFoundError` / `Exception`), in which case the
function returns `None`. -/
def parse_sales_data (fromiso : String → Option PyDateTime)
    (source : Option (List SalesRow)) : Option VelocityMap :=
  match source with
  | none => none
  | some rows => some (parse_sales_rows fromiso rows)

/-- One raw inventory row, keyed by the columns the program reads. -/
structure InventoryRow where
  sku : RowField
  available : RowField
deriving DecidableEq

/-- The row loop of `parse_inventory_data`.  Only `ValueError` is caught
at the row level; the `TypeError` raised by `int(None)` escapes to the
function-level handler, which makes the whole parse return `None`. -/
def parse_inventory_rows (rows : List InventoryRow) (acc : List (String × Int)) :
    Option (List (String × Int)) :=
  match rows with
  | [] => some acc
  | row :: rest =>
    match pyIntOfField row.available with
    | .typeError => none
    | .valueError => parse_inventory_rows rest acc
    | .ok n =>
      match row.sku with
      | RowField.str s =>
        if s ≠ "" ∧ 0 ≤ n then parse_inventory_rows rest (pyDictSet acc s n)
        else parse_inventory_rows rest acc
      | _ => parse_inventory_rows rest acc

/-- Whole `parse_inventory_data`: `none` at the argument models an
unreadable source. -/
def parse_inventory_data (source : Option (List InventoryRow)) :
    Option (List (String × Int)) :=
  match source with
  | none => none
  | some rows => parse_inventory_rows rows []

/-- Daily sales velocity: `total_quantity_sold / days_with_sales`. -/
def avg_daily_sales (info : SalesInfo) : ℚ :=
  (info.total_quantity : ℚ) / (info.days_sold.length : ℚ)

/-- Safety stock: `safety_stock_days * avg_daily_sales`. -/
def safety_stock (safety_stock_days : Int) (avg : ℚ) : ℚ :=
  (safety_stock_days : ℚ) * avg

/-- Reorder point: `lead_time_days * avg_daily_sales + safety_stock`. -/
def reorder_point (lead_time_days safety_stock_days : Int) (avg : ℚ) : ℚ :=
  (lead_time_days : ℚ) * avg + safety_stock safety_stock_days avg

/-- Days of supply, a finite rational or the infinite-float sentinel. -/
inductive DaysOfSupply where
  | finite (q : ℚ)
  | posInf
deriving DecidableEq

/-- The value `current_inventory / avg_daily_sales` when
`avg_daily_sales > 0`, and the infinite sentinel otherwise. -/
def days_of_supply_val (current_inventory : Int) (avg : ℚ) : DaysOfSupply :=
  if 0 < avg then .finite ((current_inventory : ℚ) / avg) else .posInf

/-- Python `round(x, 2)`, modelled as rounding `x` to the nearest
hundredth. -/
def round2 (q : ℚ) : ℚ :=
  ((round (q * 100) : ℤ) : ℚ) / 100

/-- `round(x, 2)` applied to a days-of-supply value (`round` maps the
infinite float to itself). -/
def round2Dos : DaysOfSupply → DaysOfSupply
  | .finite q => .finite (round2 q)
  | .posInf => .posInf

/-- Python `int(x)` on a float: truncation toward zero. -/
def pyIntTrunc (q : ℚ) : Int :=
  if 0 ≤ q then ⌊q⌋ else ⌈q⌉

/-- One output record of the decision engine, with the exact fields the
code appends to `recommendations`. -/
structure RestockRecommendation where
  sku : String
  avg_daily_sales : ℚ
  current_inventory : Int
  days_of_supply : DaysOfSupply
  reorder_point : ℚ
  recommended_order_quantity : Int
  recommendation : String
deriving DecidableEq

/-- The body of the per-sku loop of `generate_restock_recommendations`:
`none` models `continue` (a guard fired or the trigger did not). -/
def decideSku (lead_time_days safety_stock_days desired_days_of_cover : Int)
    (inventory_data : List (String × Int)) (entry : String × SalesInfo) :
    Option RestockRecommendation :=
  let sku := entry.1
  let sales_info := entry.2
  let total_quantity_sold := sales_info.total_quantity
  let days_with_sales := sales_info.days_sold.length
  if days_with_sales = 0 then none
  else
    let avg := (total_quantity_sold : ℚ) / (days_with_sales : ℚ)
    if avg ≤ 0 then none
    else
      let current_inventory := (dictGet inventory_data sku).getD 0
      let rp := reorder_point lead_time_days safety_stock_days avg
      let dos := days_of_supply_val current_inventory avg
      if (current_inventory : ℚ) < rp then
        let inbound_inventory : Int := 0
        let desired_inventory_level := (desired_days_of_cover : ℚ) * avg
        let order_quantity :=
          desired_inventory_level - ((current_inventory : ℚ) + (inbound_inventory : ℚ))
        some
          { sku := sku
            avg_daily_sales := round2 avg
            current_inventory := current_inventory
            days_of_supply := round2Dos dos
            reorder_point := round2 rp
            recommended_order_quantity := max 0 (pyIntTrunc order_quantity)
            recommendation :=
              "Stock below reorder point (" ++ toString (pyIntTrunc rp) ++
                " units). Recommend ordering." }
      else none

/-- Comparison of sort keys: a finite days-of-supply compares by value
and the infinite sentinel is greater than everything. -/
def dosLeB : DaysOfSupply → DaysOfSupply → Bool
  | .finite a, .finite b => a ≤ b
  | .posInf, .finite _ => false
  | _, .posInf => true

/-- The sort relation of `recommendations.sort(key=lambda x: x["days_of_supply"])`. -/
def recLe (a b : RestockRecommendation) : Prop :=
  dosLeB a.days_of_supply b.days_of_supply = true

instance : DecidableRel recLe := fun a b => by
  unfold recLe; infer_instance

/-- Whole `generate_restock_recommendations`: the emptiness guard, the
per-sku loop, and the final stable sort by days of supply (the Python
list sort is stable; a stable insertion sort models it exactly). -/
def generate_restock_recommendations (sales_data : VelocityMap)
    (inventory_data : List (String × Int))
    (lead_time_days safety_stock_days desired_days_of_cover : Int) :
    List RestockRecommendation :=
  if sales_data = [] ∨ inventory_data = [] then []
  else
    List.insertionSort recLe
      (sales_data.filterMap
        (decideSku lead_time_days safety_stock_days desired_days_of_cover inventory_data))

/-- The run composition of the `__main__` block: parse both sources,
then `if sales_data and inventory_data:` generate, else report failure
and produce nothing (`none`). An empty mapping is falsy in Python, so it
takes the failure branch too. -/
def runMain (fromiso : String → Option PyDateTime)
    (salesSrc : Option (List SalesRow)) (invSrc : Option (List InventoryRow))
    (lead_time_days safety_stock_days desired_days_of_cover : Int) :
    Option (List RestockRecommendation) :=
  match parse_sales_data fromiso salesSrc, parse_inventory_data invSrc with
  | some sales_data, some inventory_data =>
    if sales_data ≠ [] ∧ inventory_data ≠ [] then
      some (generate_restock_recommendations sales_data inventory_data
        lead_time_days safety_stock_days desired_days_of_cover)
    else none
  | some _, none => none
  | none, _ => none

/-! ### Helper lemmas about the dictionary model -/

theorem dictGet_pyDictSet (m : List (String × α)) (k k' : String) (v : α) :
    dictGet (pyDictSet m k v) k' = if k = k' then some v else dictGet m k' := by
  induction m with
  | nil => simp [pyDictSet, dictGet]
  | cons hd tl ih =>
    obtain ⟨k₀, v₀⟩ := hd
    by_cases h0 : k₀ = k
    · subst h0
      by_cases h1 : k₀ = k'
      · subst h1; simp [pyDictSet, dictGet]
      · simp [pyDictSet, dictGet, h1]
    · by_cases h1 : k₀ = k'
      · subst h1
        have hk : ¬ k = k₀ := fun h => h0 h.symm
        simp [pyDictSet, dictGet, h0, hk]
      · simp [pyDictSet, dictGet, h0, h1, ih]

theorem dictGet_eq_some_mem {m : List (String × α)} {k : String} {v : α}
    (h : dictGet m k = some v) : (k, v) ∈ m := by
  induction m with
  | nil => simp [dictGet] at h
  | cons hd tl ih =>
    obtain ⟨k₀, v₀⟩ := hd
    simp only [dictGet] at h
    split at h
    · cases h
      simp_all
    · exact List.mem_cons_of_mem _ (ih h)

theorem mem_pyDictSet (m : List (String × α)) (k : String) (v : α) {p : String × α}
    (h : p ∈ pyDictSet m k v) : p ∈ m ∨ p = (k, v) := by
  induction m with
  | nil => simpa [pyDictSet] using h
  | cons hd tl ih =>
    obtain ⟨k₀, v₀⟩ := hd
    simp only [pyDictSet] at h
    split at h
    · rcases List.mem_cons.1 h with h | h
      · right; simp_all
      · left; exact List.mem_cons_of_mem _ h
    · rcases List.mem_cons.1 h with h | h
      · left; simp_all
      · rcases ih h with h | h
        · exact Or.inl (List.mem_cons_of_mem _ h)
        · exact Or.inr h

/-- In a mapping with duplicate-free keys, a key determines its value. -/
theorem nodupKeys_value_unique {m : List (String × α)} (hnd : (m.map Prod.fst).Nodup)
    {k : String} {v₁ v₂ : α} (h₁ : (k, v₁) ∈ m) (h₂ : (k, v₂) ∈ m) : v₁ = v₂ := by
  induction m with
  | nil => simp at h₁
  | cons hd tl ih =>
    rw [List.map_cons] at hnd
    have hnd' := List.nodup_cons.mp hnd
    rcases List.mem_cons.1 h₁ with e₁ | e₁ <;> rcases List.mem_cons.1 h₂ with e₂ | e₂
    · subst e₁
      exact (congrArg Prod.snd e₂).symm
    · subst e₁
      exact absurd (List.mem_map_of_mem Prod.fst e₂) hnd'.1
    · subst e₂
      exact absurd (List.mem_map_of_mem Prod.fst e₁) hnd'.1
    · exact ih hnd'.2 e₁ e₂

/-! ### Helper lemmas about the sort relation -/

theorem dosLeB_refl (d : DaysOfSupply) : dosLeB d d = true := by
  cases d <;> simp [dosLeB]

instance : IsTotal RestockRecommendation recLe := by
  constructor
  intro a b
  unfold recLe
  cases ha : a.days_of_supply with
  | finite x =>
    cases hb : b.days_of_supply with
    | finite y =>
      rcases le_total x y with h | h
      · exact Or.inl (by simpa [dosLeB] using h)
      · exact Or.inr (by simpa [dosLeB] using h)
    | posInf => exact Or.inl (by simp [dosLeB])
  | posInf =>
    cases hb : b.days_of_supply with
    | finite y => exact Or.inr (by simp [dosLeB])
    | posInf => exact Or.inl (by simp [dosLeB])

theorem dosLeB_trans {a b c : DaysOfSupply} (h₁ : dosLeB a b = true)
    (h₂ : dosLeB b c = true) : dosLeB a c = true := by
  cases a with
  | finite x =>
    cases c with
    | posInf => simp [dosLeB]
    | finite z =>
      cases b with
      | posInf => simp [dosLeB] at h₂
      | finite y =>
        simp only [dosLeB, decide_eq_true_eq] at h₁ h₂ ⊢
        exact le_trans h₁ h₂
  | posInf =>
    cases b with
    | finite y => simp [dosLeB] at h₁
    | posInf =>
      cases c with
      | finite z => simp [dosLeB] at h₂
      | posInf => simp [dosLeB]

instance : IsTrans RestockRecommendation recLe := by
  constructor
  intro a b c hab hbc
  unfold recLe at *
  exact dosLeB_trans hab hbc

/-- Filtering through an ordered insert: an element whose key is not
reached by the relation from `a` cannot share a filter class with `a`,
so the insert commutes with the filter. -/
theorem filter_orderedInsert {α : Type} (r : α → α → Prop) [DecidableRel r]
    (p : α → Bool) (a : α) (l : List α)
    (h : ∀ b ∈ l, ¬ r a b → p a = true → p b = false) :
    (List.orderedInsert r a l).filter p =
      if p a = true then a :: l.filter p else l.filter p := by
  induction l with
  | nil =>
    by_cases hpa : p a = true
    · rw [List.orderedInsert_nil, if_pos hpa, List.filter_cons_of_pos hpa]
    · rw [List.orderedInsert_nil, if_neg hpa,
        List.filter_cons_of_neg (by simpa using hpa)]
  | cons b l ih =>
    simp only [List.orderedInsert]
    by_cases hr : r a b
    · rw [if_pos hr]
      by_cases hpa : p a = true
      · rw [if_pos hpa, List.filter_cons_of_pos hpa]
      · rw [if_neg hpa, List.filter_cons_of_neg (by simpa using hpa)]
    · rw [if_neg hr]
      have hb := h b (List.mem_cons_self b l) hr
      have ih' := ih (fun x hx => h x (List.mem_cons_of_mem _ hx))
      by_cases hpa : p a = true
      · have hpb : ¬ p b = true := by simp [hb hpa]
        rw [if_pos hpa, List.filter_cons_of_neg hpb, ih', if_pos hpa,
          List.filter_cons_of_neg hpb]
      · have hins : (List.orderedInsert r a l).filter p = l.filter p := by
          rw [ih', if_neg hpa]
        rw [if_neg hpa]
        by_cases hpb : p b = true
        · rw [List.filter_cons_of_pos hpb, List.filter_cons_of_pos hpb, hins]
        · rw [List.filter_cons_of_neg (by simpa using hpb),
            List.filter_cons_of_neg (by simpa using hpb), hins]

/-- A stable sort leaves each filter class of the sort key untouched:
this is the formal content of "ties broken by input order". -/
theorem filter_insertionSort {α : Type} (r : α → α → Prop) [DecidableRel r]
    (p : α → Bool) (h : ∀ a b, ¬ r a b → p a = true → p b = false) (l : List α) :
    (List.insertionSort r l).filter p = l.filter p := by
  induction l with
  | nil => rfl
  | cons a l ih =>
    simp only [List.insertionSort]
    rw [filter_orderedInsert r p a _ (fun b _ => h a b)]
    by_cases hpa : p a = true
    · rw [if_pos hpa, ih, List.filter_cons_of_pos hpa]
    · rw [if_neg hpa, ih, List.filter_cons_of_neg (by simpa using hpa)]

/-! ### Evaluation helpers for the rational arithmetic -/

theorem round2_intCast (n : Int) : round2 ((n : ℚ)) = (n : ℚ) := by
  unfold round2
  rw [show ((n : ℚ) * 100) = (((n * 100 : Int)) : ℚ) by push_cast; ring]
  rw [round_intCast]
  push_cast
  ring

theorem pyIntTrunc_intCast (n : Int) : pyIntTrunc ((n : ℚ)) = n := by
  unfold pyIntTrunc
  split_ifs
  · exact Int.floor_intCast n
  · exact Int.ceil_intCast n

/-! ### Characterization of the per-sku decision -/

theorem avg_daily_sales_def (info : SalesInfo) :
    avg_daily_sales info = (info.total_quantity : ℚ) / (info.days_sold.length : ℚ) := rfl

/-- The record the engine emits for a triggered sku, with every local of
the loop body spelled out. -/
def recommendationFor (lead_time_days safety_stock_days desired_days_of_cover : Int)
    (inventory_data : List (String × Int)) (sku : String) (info : SalesInfo) :
    RestockRecommendation :=
  { sku := sku
    avg_daily_sales := round2 (avg_daily_sales info)
    current_inventory := (dictGet inventory_data sku).getD 0
    days_of_supply :=
      round2Dos (days_of_supply_val ((dictGet inventory_data sku).getD 0)
        (avg_daily_sales info))
    reorder_point :=
      round2 (reorder_point lead_time_days safety_stock_days (avg_daily_sales info))
    recommended_order_quantity :=
      max 0 (pyIntTrunc ((desired_days_of_cover : ℚ) * avg_daily_sales info -
        ((((dictGet inventory_data sku).getD 0 : Int) : ℚ) + ((0 : Int) : ℚ))))
    recommendation :=
      "Stock below reorder point (" ++
        toString (pyIntTrunc
          (reorder_point lead_time_days safety_stock_days (avg_daily_sales info))) ++
        " units). Recommend ordering." }

theorem decideSku_eq_some_iff {l s c : Int} {inv : List (String × Int)}
    {sku : String} {info : SalesInfo} {r : RestockRecommendation} :
    decideSku l s c inv (sku, info) = some r ↔
      info.days_sold.length ≠ 0 ∧ ¬ avg_daily_sales info ≤ 0 ∧
        (((dictGet inv sku).getD 0 : Int) : ℚ) <
          reorder_point l s (avg_daily_sales info) ∧
        r = recommendationFor l s c inv sku info := by
  rw [show decideSku l s c inv (sku, info) =
      (if info.days_sold.length = 0 then none
       else if avg_daily_sales info ≤ 0 then none
       else if (((dictGet inv sku).getD 0 : Int) : ℚ) <
           reorder_point l s (avg_daily_sales info) then
         some (recommendationFor l s c inv sku info)
       else none) from rfl]
  split_ifs with h1 h2 h3
  · simp [h1]
  · simp [h2]
  · constructor
    · intro h
      exact ⟨h1, h2, h3, (Option.some.inj h).symm⟩
    · rintro ⟨-, -, -, rfl⟩
      rfl
  · constructor
    · intro h
      exact absurd h (by simp)
    · rintro ⟨-, -, h, -⟩
      exact absurd h h3

theorem decideSku_sku_eq {l s c : Int} {inv : List (String × Int)}
    {e : String × SalesInfo} {r : RestockRecommendation}
    (h : decideSku l s c inv e = some r) : r.sku = e.1 := by
  obtain ⟨sku, info⟩ := e
  rw [decideSku_eq_some_iff] at h
  rw [h.2.2.2]
  rfl

theorem mem_generate_iff {sales : VelocityMap} {inv : List (String × Int)}
    {l s c : Int} {r : RestockRecommendation} :
    r ∈ generate_restock_recommendations sales inv l s c ↔
      ¬ (sales = [] ∨ inv = []) ∧ ∃ e ∈ sales, decideSku l s c inv e = some r := by
  unfold generate_restock_recommendations
  split_ifs with h
  · simp [h]
  · rw [List.mem_insertionSort]
    simp [List.mem_filterMap, h]

/-! ### Concrete example data (spec §8, scenario 1) -/

/-- Example date 2025-07-10. -/
def exDay0 : PyDate := ⟨2025, 7, 10⟩

/-- Example date 2025-07-11. -/
def exDay1 : PyDate := ⟨2025, 7, 11⟩

/-- Velocity of a sku that sold 20 units over 2 distinct days. -/
def exInfo : SalesInfo := ⟨20, [exDay0, exDay1]⟩

/-- A one-sku velocity mapping. -/
def exSales : VelocityMap := [("A", exInfo)]

/-- A one-sku inventory snapshot with 50 units on hand. -/
def exInv : List (String × Int) := [("A", 50)]

/-- The recommendation the engine emits for the example data with
`lead_time_days = 21`, `safety_stock_days = 10`, `desired_days_of_cover = 45`. -/
def exRec : RestockRecommendation :=
  { sku := "A"
    avg_daily_sales := 10
    current_inventory := 50
    days_of_supply := DaysOfSupply.finite 5
    reorder_point := 310
    recommended_order_quantity := 400
    recommendation := "Stock below reorder point (310 units). Recommend ordering." }

theorem exInfo_avg : avg_daily_sales exInfo = 10 := by
  rw [avg_daily_sales_def]
  norm_num [exInfo]

theorem exInfo_rp : reorder_point 21 10 (avg_daily_sales exInfo) = 310 := by
  rw [exInfo_avg]
  unfold reorder_point safety_stock
  norm_num

theorem exDecide_eval : decideSku 21 10 45 exInv ("A", exInfo) = some exRec := by
  have hget : dictGet exInv "A" = some 50 := rfl
  rw [decideSku_eq_some_iff]
  refine ⟨by norm_num [exInfo], by rw [exInfo_avg]; norm_num,
    by rw [hget, exInfo_rp]; norm_num, ?_⟩
  unfold recommendationFor
  rw [hget, exInfo_rp, exInfo_avg]
  have h10 : round2 (10 : ℚ) = 10 := by
    rw [show (10 : ℚ) = ((10 : Int) : ℚ) by norm_num, round2_intCast]
  have h310 : round2 (310 : ℚ) = 310 := by
    rw [show (310 : ℚ) = ((310 : Int) : ℚ) by norm_num, round2_intCast]
  have hdos : days_of_supply_val ((some (50 : Int)).getD 0) 10 = DaysOfSupply.finite 5 := by
    unfold days_of_supply_val
    rw [if_pos (by norm_num)]
    norm_num
  have h5 : round2 (5 : ℚ) = 5 := by
    rw [show (5 : ℚ) = ((5 : Int) : ℚ) by norm_num, round2_intCast]
  have ht400 : pyIntTrunc (((45 : Int) : ℚ) * 10 -
      ((((some (50 : Int)).getD 0 : Int) : ℚ) + ((0 : Int) : ℚ))) = 400 := by
    rw [show (((45 : Int) : ℚ) * 10 -
        ((((some (50 : Int)).getD 0 : Int) : ℚ) + ((0 : Int) : ℚ))) =
      ((400 : Int) : ℚ) by push_cast; norm_num, pyIntTrunc_intCast]
  have ht310 : pyIntTrunc (310 : ℚ) = 310 := by
    rw [show (310 : ℚ) = ((310 : Int) : ℚ) by norm_num, pyIntTrunc_intCast]
  rw [exRec, RestockRecommendation.mk.injEq]
  refine ⟨rfl, h10.symm, rfl, ?_, h310.symm, ?_, ?_⟩
  · rw [hdos, round2Dos, h5]
  · rw [ht400]
    have hmax : ((0 : Int) ⊔ 400) = 400 := by
      rw [sup_eq_max]
      exact max_eq_right (by norm_num)
    rw [hmax]
  · rw [ht310]
    decide

theorem exGenerate_eval :
    generate_restock_recommendations exSales exInv 21 10 45 = [exRec] := by
  unfold generate_restock_recommendations
  rw [if_neg (by simp [exSales, exInv])]
  have hfm : exSales.filterMap (decideSku 21 10 45 exInv) = [exRec] := by
    rw [show exSales = [("A", exInfo)] from rfl, List.filterMap_cons, exDecide_eval]
    rfl
  rw [hfm]
  rfl

/-! ### Claims -/

/-- C8: for a fixed sku with fixed velocity statistics and fixed policy
parameters, the trigger is monotone in inventory: decreasing
`current_inventory` can only move a non-triggered sku into triggered,
never move a triggered sku into non-triggered. -/
theorem C8_trigger_monotone (l s c : Int) (inv inv' : List (String × Int))
    (sku : String) (info : SalesInfo) (r : RestockRecommendation)
    (hle : (dictGet inv' sku).getD 0 ≤ (dictGet inv sku).getD 0)
    (h : decideSku l s c inv (sku, info) = some r) :
    ∃ r', decideSku l s c inv' (sku, info) = some r' := by
  rw [decideSku_eq_some_iff] at h
  refine ⟨recommendationFor l s c inv' sku info,
    decideSku_eq_some_iff.mpr ⟨h.1, h.2.1, ?_, rfl⟩⟩
  exact lt_of_le_of_lt (by exact_mod_cast hle) h.2.2.1

/-- Witness for C8 at the concrete example: lowering the snapshot from
50 to 10 units keeps the sku triggered. -/
theorem C8_witness :
    ∃ r', decideSku 21 10 45 [("A", (10 : Int))] ("A", exInfo) = some r' :=
  C8_trigger_monotone 21 10 45 exInv [("A", 10)] "A" exInfo exRec
    (by decide) exDecide_eval

/-- C10: every emitted recommendation has a finite days_of_supply (the
positive-infinity sentinel never appears in output), and the unrounded
value `current_inventory / avg_daily_sales` of every emitted
recommendation is strictly less than
`lead_time_days + safety_stock_days`. -/
theorem C10_days_of_supply_finite (l s c : Int) (sales : VelocityMap)
    (inv : List (String × Int)) :
    (∀ r ∈ generate_restock_recommendations sales inv l s c,
        ∃ q, r.days_of_supply = DaysOfSupply.finite q) ∧
      (∀ (sku : String) (info : SalesInfo) (r : RestockRecommendation),
        decideSku l s c inv (sku, info) = some r →
          (∃ q, r.days_of_supply = DaysOfSupply.finite q) ∧
            (((dictGet inv sku).getD 0 : Int) : ℚ) / avg_daily_sales info <
              ((l : Int) : ℚ) + ((s : Int) : ℚ)) := by
  have key : ∀ (sku : String) (info : SalesInfo) (r : RestockRecommendation),
      decideSku l s c inv (sku, info) = some r →
        (∃ q, r.days_of_supply = DaysOfSupply.finite q) ∧
          (((dictGet inv sku).getD 0 : Int) : ℚ) / avg_daily_sales info <
            ((l : Int) : ℚ) + ((s : Int) : ℚ) := by
    intro sku info r h
    rw [decideSku_eq_some_iff] at h
    obtain ⟨hd, ha, htrig, hr⟩ := h
    have havg : 0 < avg_daily_sales info := not_le.mp ha
    constructor
    · refine ⟨round2 ((((dictGet inv sku).getD 0 : Int) : ℚ) / avg_daily_sales info), ?_⟩
      rw [hr]
      show round2Dos (days_of_supply_val ((dictGet inv sku).getD 0)
        (avg_daily_sales info)) = _
      unfold days_of_supply_val
      rw [if_pos havg]
      rfl
    · have hrp : reorder_point l s (avg_daily_sales info) =
          (((l : Int) : ℚ) + ((s : Int) : ℚ)) * avg_daily_sales info := by
        unfold reorder_point safety_stock
        ring
      rw [hrp] at htrig
      exact (div_lt_iff havg).mpr htrig
  refine ⟨?_, key⟩
  intro r hr
  rw [mem_generate_iff] at hr
  obtain ⟨-, e, -, hd⟩ := hr
  obtain ⟨sku, info⟩ := e
  exact (key sku info r hd).1

/-- Witness for C10 at the concrete example: the emitted record has the
finite days-of-supply 5, and 50 / 10 < 21 + 10. -/
theorem C10_witness :
    (∃ q, exRec.days_of_supply = DaysOfSupply.finite q) ∧
      (((dictGet exInv "A").getD 0 : Int) : ℚ) / avg_daily_sales exInfo <
        ((21 : Int) : ℚ) + ((10 : Int) : ℚ) :=
  (C10_days_of_supply_finite 21 10 45 exSales exInv).2 "A" exInfo exRec exDecide_eval

/-- C2: for every emitted recommendation, recommended_order_quantity
equals max(0, round_to_integer(desired_days_of_cover * avg_daily_sales -
(current_inventory + 0))) — where round_to_integer is the truncation
toward zero performed by Python `int()` — and in particular
recommended_order_quantity is non-negative; a quantity of 0 on a
triggered sku is a valid output. -/
theorem C2_order_quantity (l s c : Int) (sales : VelocityMap)
    (inv : List (String × Int)) (r : RestockRecommendation)
    (h : r ∈ generate_restock_recommendations sales inv l s c) :
    0 ≤ r.recommended_order_quantity ∧
      ∃ sku info, (sku, info) ∈ sales ∧ r.sku = sku ∧
        r.recommended_order_quantity =
          max 0 (pyIntTrunc (((c : Int) : ℚ) * avg_daily_sales info -
            ((((dictGet inv sku).getD 0 : Int) : ℚ) + 0))) := by
  rw [mem_generate_iff] at h
  obtain ⟨-, e, hmem, hd⟩ := h
  obtain ⟨sku, info⟩ := e
  rw [decideSku_eq_some_iff] at hd
  obtain ⟨-, -, -, rfl⟩ := hd
  refine ⟨le_max_left 0 _, sku, info, hmem, rfl, ?_⟩
  show max 0 (pyIntTrunc (((c : Int) : ℚ) * avg_daily_sales info -
    ((((dictGet inv sku).getD 0 : Int) : ℚ) + ((0 : Int) : ℚ)))) = _
  norm_num

/-- Witness for C2 at the concrete example. -/
theorem C2_witness :
    0 ≤ exRec.recommended_order_quantity ∧
      ∃ sku info, (sku, info) ∈ exSales ∧ exRec.sku = sku ∧
        exRec.recommended_order_quantity =
          max 0 (pyIntTrunc (((45 : Int) : ℚ) * avg_daily_sales info -
            ((((dictGet exInv sku).getD 0 : Int) : ℚ) + 0))) :=
  C2_order_quantity 21 10 45 exSales exInv exRec (by simp [exGenerate_eval])

/-- C1 (amended): provided the inventory snapshot is non-empty (the
engine short-circuits to an empty output when either input mapping is
empty), for every sku in the sales-velocity mapping that passes the
velocity guards, a recommendation is emitted iff
current_inventory < reorder_point, where
avg_daily_sales = total_quantity / number of distinct selling days,
reorder_point = lead_time_days * avg_daily_sales + safety_stock_days *
avg_daily_sales, and current_inventory defaults to 0 for a sku absent
from the snapshot. -/
theorem C1_trigger_iff (l s c : Int) (sales : VelocityMap)
    (inv : List (String × Int)) (sku : String) (info : SalesInfo)
    (hnd : (sales.map Prod.fst).Nodup) (hinv : inv ≠ [])
    (hmem : (sku, info) ∈ sales)
    (hdays : info.days_sold.length ≠ 0) (havg : 0 < avg_daily_sales info) :
    (∃ r ∈ generate_restock_recommendations sales inv l s c, r.sku = sku) ↔
      (((dictGet inv sku).getD 0 : Int) : ℚ) <
        reorder_point l s (avg_daily_sales info) := by
  constructor
  · rintro ⟨r, hr, hsku⟩
    rw [mem_generate_iff] at hr
    obtain ⟨-, e, hmem₀, hd₀⟩ := hr
    obtain ⟨sku₀, info₀⟩ := e
    have h1 : r.sku = sku₀ := decideSku_sku_eq hd₀
    have heq : sku₀ = sku := by
      rw [← h1]
      exact hsku
    subst heq
    have heq' : info₀ = info := nodupKeys_value_unique hnd hmem₀ hmem
    subst heq'
    exact (decideSku_eq_some_iff.mp hd₀).2.2.1
  · intro htrig
    refine ⟨recommendationFor l s c inv sku info, ?_, rfl⟩
    rw [mem_generate_iff]
    refine ⟨?_, (sku, info), hmem,
      decideSku_eq_some_iff.mpr ⟨hdays, not_le.mpr havg, htrig, rfl⟩⟩
    rintro (h | h)
    · exact absurd (h ▸ hmem) (List.not_mem_nil _)
    · exact hinv h

/-- Witness for the amended C1 at the concrete example. -/
theorem C1_witness :
    (∃ r ∈ generate_restock_recommendations exSales exInv 21 10 45, r.sku = "A") ↔
      (((dictGet exInv "A").getD 0 : Int) : ℚ) <
        reorder_point 21 10 (avg_daily_sales exInfo) :=
  C1_trigger_iff 21 10 45 exSales exInv "A" exInfo (by decide)
    (by simp [exInv]) (by simp [exSales]) (by decide)
    (by rw [exInfo_avg]; norm_num)

/-- C1 counterexample: with a readable but empty inventory snapshot the
engine emits nothing, although the sku passes the velocity guards and
its defaulted inventory 0 is below the reorder point 310 — the claimed
iff fails on the empty-mapping guard of the engine. -/
theorem C1_counterexample :
    ¬ ((∃ r ∈ generate_restock_recommendations [("A", exInfo)] [] 21 10 45,
          r.sku = "A") ↔
        (((dictGet ([] : List (String × Int)) "A").getD 0 : Int) : ℚ) <
          reorder_point 21 10 (avg_daily_sales exInfo)) := by
  intro h
  have hgen : generate_restock_recommendations [("A", exInfo)] [] 21 10 45 = [] := by
    unfold generate_restock_recommendations
    rw [if_pos (Or.inr rfl)]
  have htrig : (((dictGet ([] : List (String × Int)) "A").getD 0 : Int) : ℚ) <
      reorder_point 21 10 (avg_daily_sales exInfo) := by
    rw [exInfo_rp]
    show ((0 : Int) : ℚ) < 310
    norm_num
  obtain ⟨r, hr, -⟩ := h.mpr htrig
  rw [hgen] at hr
  exact List.not_mem_nil r hr

/-- C3: the output sequence is sorted ascending (non-decreasing) in
days_of_supply, and ties are broken by input order: the sort is stable,
so within each days_of_supply class the output preserves the order in
which the recommendations were emitted, making the output deterministic. -/
theorem C3_sorted_and_stable (l s c : Int) (sales : VelocityMap)
    (inv : List (String × Int)) :
    List.Sorted recLe (generate_restock_recommendations sales inv l s c) ∧
      (sales ≠ [] → inv ≠ [] →
        ∀ k : DaysOfSupply,
          (generate_restock_recommendations sales inv l s c).filter
              (fun r => r.days_of_supply == k) =
            (sales.filterMap (decideSku l s c inv)).filter
              (fun r => r.days_of_supply == k)) := by
  constructor
  · unfold generate_restock_recommendations
    split_ifs with h
    · exact List.sorted_nil
    · exact List.sorted_insertionSort recLe _
  · intro hs hi k
    unfold generate_restock_recommendations
    rw [if_neg (by simp [hs, hi])]
    refine filter_insertionSort recLe _ ?_ _
    intro a b hab hpa
    simp only [beq_iff_eq] at hpa
    cases hb : (b.days_of_supply == k) with
    | false => rfl
    | true =>
      simp only [beq_iff_eq] at hb
      refine absurd ?_ hab
      unfold recLe
      rw [hpa, hb]
      exact dosLeB_refl k

/-- Witness for C3 at the concrete example. -/
theorem C3_witness :
    List.Sorted recLe (generate_restock_recommendations exSales exInv 21 10 45) ∧
      (generate_restock_recommendations exSales exInv 21 10 45).filter
          (fun r => r.days_of_supply == DaysOfSupply.finite 5) =
        (exSales.filterMap (decideSku 21 10 45 exInv)).filter
          (fun r => r.days_of_supply == DaysOfSupply.finite 5) :=
  ⟨(C3_sorted_and_stable 21 10 45 exSales exInv).1,
    (C3_sorted_and_stable 21 10 45 exSales exInv).2 (by simp [exSales])
      (by simp [exInv]) (DaysOfSupply.finite 5)⟩

/-! ### The aggregator invariant (C9) -/

/-- Invariant of the velocity mapping: every entry has at least one
selling day, and no fewer units than selling days. -/
def salesInv (m : VelocityMap) : Prop :=
  ∀ p ∈ m, 1 ≤ p.2.days_sold.length ∧
    (p.2.days_sold.length : Int) ≤ p.2.total_quantity

theorem dayInsert_length_le (d : PyDate) (l : List PyDate) :
    (dayInsert d l).length ≤ l.length + 1 := by
  unfold dayInsert
  split
  · exact Nat.le_succ _
  · simp

theorem one_le_dayInsert_length (d : PyDate) (l : List PyDate) :
    1 ≤ (dayInsert d l).length := by
  unfold dayInsert
  split
  · exact List.length_pos.mpr (List.ne_nil_of_mem (by assumption))
  · simp

theorem salesUpdate_invariant (m : VelocityMap) (sku : String) (q : Int)
    (d : PyDate) (hq : 0 < q) (hm : salesInv m) :
    salesInv (salesUpdate m sku q d) := by
  intro p hp
  simp only [salesUpdate] at hp
  rcases mem_pyDictSet _ _ _ hp with h | h
  · exact hm p h
  · subst h
    cases hg : dictGet m sku with
    | none =>
      dsimp only [Option.getD_none]
      refine ⟨one_le_dayInsert_length d _, ?_⟩
      have h1 : (dayInsert d ([] : List PyDate)).length ≤ 0 + 1 :=
        dayInsert_length_le d []
      omega
    | some i =>
      have hi := hm _ (dictGet_eq_some_mem hg)
      dsimp only [Option.getD_some] at hi ⊢
      refine ⟨one_le_dayInsert_length d _, ?_⟩
      have h1 := dayInsert_length_le d i.days_sold
      have h2 := hi.2
      omega

theorem salesStep_invariant (fromiso : String → Option PyDateTime)
    (m : VelocityMap) (row : SalesRow) (hm : salesInv m) :
    salesInv (salesStep fromiso m row) := by
  unfold salesStep
  split
  · exact hm
  · cases hq : pyIntOfField row.quantity with
    | valueError => exact hm
    | typeError => exact hm
    | ok q =>
      cases hsku : row.sku with
      | missing => cases hpd : row.purchase_date <;> exact hm
      | null => cases hpd : row.purchase_date <;> exact hm
      | str sku =>
        cases hpd : row.purchase_date with
        | missing => exact hm
        | null => exact hm
        | str ds =>
          dsimp only
          split_ifs with hc
          · cases hdt : fromiso (pyReplaceUTC ds) with
            | none => exact hm
            | some dt => exact salesUpdate_invariant m sku q dt.date hc.2.1 hm
          · exact hm

theorem parse_sales_rows_invariant (fromiso : String → Option PyDateTime)
    (rows : List SalesRow) : salesInv (parse_sales_rows fromiso rows) := by
  suffices h : ∀ m, salesInv m → salesInv (rows.foldl (salesStep fromiso) m) by
    refine h [] ?_
    intro p hp
    exact absurd hp (List.not_mem_nil p)
  induction rows with
  | nil => exact fun m hm => hm
  | cons row rest ih =>
    intro m hm
    exact ih _ (salesStep_invariant fromiso m row hm)

/-- C9: every sku of the output of the aggregator has
total_quantity ≥ distinct-selling-days ≥ 1, hence avg_daily_sales ≥ 1 > 0,
so the defensive guards of the decision engine (zero selling days,
non-positive velocity, and the positive-infinity branch of
days_of_supply) are unreachable on the output of the aggregator. -/
theorem C9_aggregator_invariant (fromiso : String → Option PyDateTime)
    (rows : List SalesRow) (sku : String) (info : SalesInfo)
    (hmem : (sku, info) ∈ parse_sales_rows fromiso rows) :
    1 ≤ info.days_sold.length ∧
      (info.days_sold.length : Int) ≤ info.total_quantity ∧
      1 ≤ avg_daily_sales info ∧
      info.days_sold.length ≠ 0 ∧
      ¬ avg_daily_sales info ≤ 0 ∧
      ∀ cur : Int, days_of_supply_val cur (avg_daily_sales info) =
        DaysOfSupply.finite ((cur : ℚ) / avg_daily_sales info) := by
  have h := parse_sales_rows_invariant fromiso rows (sku, info) hmem
  have hlen : 1 ≤ info.days_sold.length := h.1
  have hletot : (info.days_sold.length : Int) ≤ info.total_quantity := h.2
  have hdpos : (0 : ℚ) < (info.days_sold.length : ℚ) := by exact_mod_cast hlen
  have havg : 1 ≤ avg_daily_sales info := by
    rw [avg_daily_sales_def, le_div_iff hdpos, one_mul]
    exact_mod_cast hletot
  have hpos : 0 < avg_daily_sales info := lt_of_lt_of_le zero_lt_one havg
  refine ⟨hlen, hletot, havg, by omega, not_le.mpr hpos, ?_⟩
  intro cur
  unfold days_of_supply_val
  rw [if_pos hpos]

/-- A concrete model of `datetime.fromisoformat` recognising the one
timestamp used in the example rows. -/
def exFromiso : String → Option PyDateTime :=
  fun str => if str = "2025-07-10T20:58:30" then some ⟨exDay0⟩ else none

/-- A valid shipped sales row: 2 units of sku A on 2025-07-10, with a
UTC offset suffix on the timestamp. -/
def exSalesRow : SalesRow :=
  ⟨RowField.str "Shipped", RowField.str "A", RowField.str "2",
    RowField.str "2025-07-10T20:58:30+00:00"⟩

/-- The velocity entry produced by the single example row. -/
def exInfo1 : SalesInfo := ⟨2, [exDay0]⟩

/-- Witness for C9 on the aggregate of one concrete shipped row. -/
theorem C9_witness :
    1 ≤ exInfo1.days_sold.length ∧
      (exInfo1.days_sold.length : Int) ≤ exInfo1.total_quantity ∧
      1 ≤ avg_daily_sales exInfo1 ∧
      exInfo1.days_sold.length ≠ 0 ∧
      ¬ avg_daily_sales exInfo1 ≤ 0 ∧
      ∀ cur : Int, days_of_supply_val cur (avg_daily_sales exInfo1) =
        DaysOfSupply.finite ((cur : ℚ) / avg_daily_sales exInfo1) :=
  C9_aggregator_invariant exFromiso [exSalesRow] "A" exInfo1 (by decide)

/-! ### Row admission in the sales aggregator (C4) -/

/-- The admission condition of a raw sales row: shipped status,
non-empty sku, quantity parsing to a positive integer, and a non-empty
purchase date that parses after the `+00:00` offset is stripped. -/
def salesAdmitted (fromiso : String → Option PyDateTime) (row : SalesRow) : Prop :=
  row.order_status = RowField.str "Shipped" ∧
    (∃ sku, row.sku = RowField.str sku ∧ sku ≠ "") ∧
    (∃ q, pyIntOfField row.quantity = IntResult.ok q ∧ 0 < q) ∧
    (∃ ds dt, row.purchase_date = RowField.str ds ∧ ds ≠ "" ∧
      fromiso (pyReplaceUTC ds) = some dt)

theorem salesStep_not_admitted (fromiso : String → Option PyDateTime)
    (m : VelocityMap) (row : SalesRow) (hna : ¬ salesAdmitted fromiso row) :
    salesStep fromiso m row = m := by
  unfold salesStep
  by_cases hst : row.order_status = RowField.str "Shipped"
  case neg => rw [if_pos hst]
  case pos =>
    rw [if_neg (by simp [hst])]
    cases hq : pyIntOfField row.quantity with
    | valueError => rfl
    | typeError => rfl
    | ok q =>
      cases hsku : row.sku with
      | missing => cases hpd : row.purchase_date <;> rfl
      | null => cases hpd : row.purchase_date <;> rfl
      | str sku =>
        cases hpd : row.purchase_date with
        | missing => rfl
        | null => rfl
        | str ds =>
          dsimp only
          split_ifs with hc
          · cases hdt : fromiso (pyReplaceUTC ds) with
            | none => rfl
            | some dt =>
              exact absurd ⟨hst, ⟨sku, hsku, hc.1⟩, ⟨q, hq, hc.2.1⟩,
                ⟨ds, dt, hpd, hc.2.2, hdt⟩⟩ hna
          · rfl

/-- C4: a raw sales row contributes to the velocity mapping iff its
order status is "Shipped", its sku is non-empty, its quantity parses to
a positive integer, and its purchase date is non-empty and parses after
the fixed `+00:00` offset suffix is stripped; an admitted row adds its
quantity to the running total of the sku and inserts the date portion
of the parsed timestamp into its set of distinct selling days. -/
theorem C4_row_admission (fromiso : String → Option PyDateTime)
    (m : VelocityMap) (row : SalesRow) :
    (¬ salesAdmitted fromiso row → salesStep fromiso m row = m) ∧
      (∀ (sku : String) (q : Int) (ds : String) (dt : PyDateTime),
        row.order_status = RowField.str "Shipped" →
        row.sku = RowField.str sku → sku ≠ "" →
        pyIntOfField row.quantity = IntResult.ok q → 0 < q →
        row.purchase_date = RowField.str ds → ds ≠ "" →
        fromiso (pyReplaceUTC ds) = some dt →
        salesStep fromiso m row = salesUpdate m sku q dt.date) := by
  refine ⟨salesStep_not_admitted fromiso m row, ?_⟩
  intro sku q ds dt h1 h2 h3 h4 h5 h6 h7 h8
  unfold salesStep
  rw [if_neg (by simp [h1])]
  rw [h4, h2, h6]
  dsimp only
  rw [if_pos ⟨h3, h5, h7⟩, h8]

/-- A row rejected for its non-shipped status. -/
def exPendingRow : SalesRow :=
  ⟨RowField.str "Pending", RowField.str "A", RowField.str "2",
    RowField.str "2025-07-10T20:58:30+00:00"⟩

/-- Witness for C4: the pending row leaves the mapping unchanged, and
the shipped example row adds its 2 units and its calendar day. -/
theorem C4_witness :
    salesStep exFromiso [] exPendingRow = [] ∧
      salesStep exFromiso [] exSalesRow = salesUpdate [] "A" 2 exDay0 :=
  ⟨(C4_row_admission exFromiso [] exPendingRow).1
      (fun h => absurd h.1 (by decide)),
    (C4_row_admission exFromiso [] exSalesRow).2 "A" 2
      "2025-07-10T20:58:30+00:00" (⟨exDay0⟩ : PyDateTime) rfl rfl (by decide)
      (by decide) (by decide) rfl (by decide) (by decide)⟩

/-! ### The inventory snapshot as a last-wins lookup (C5) -/

/-- The integer the row loop obtains for an available field when no
exception escapes: a missing column gives the dict.get default 0, a
parseable string gives its value. -/
def invFieldValue (f : RowField) : Option Int :=
  match pyIntOfField f with
  | .ok n => some n
  | _ => none

/-- Spec-side test: the row is an admissible binding for `sku` (sku
present and equal, available yielding a non-negative integer). -/
def invRowGoodFor (sku : String) (row : InventoryRow) : Bool :=
  (row.sku == RowField.str sku) && row.sku.truthy &&
    (match invFieldValue row.available with
     | some n => decide (0 ≤ n)
     | none => false)

/-- Spec-side lookup: the available quantity of the last row for `sku`
that is an admissible binding. -/
def specInvLookup (rows : List InventoryRow) (sku : String) : Option Int :=
  (rows.reverse.find? (invRowGoodFor sku)).bind
    (fun row => invFieldValue row.available)

theorem specInvLookup_nil (sku : String) : specInvLookup [] sku = none := rfl

theorem specInvLookup_cons (row : InventoryRow) (rest : List InventoryRow)
    (sku : String) :
    specInvLookup (row :: rest) sku =
      (specInvLookup rest sku).or
        (if invRowGoodFor sku row then invFieldValue row.available else none) := by
  unfold specInvLookup
  rw [List.reverse_cons, List.find?_append]
  cases hf : rest.reverse.find? (invRowGoodFor sku) with
  | some r =>
    have hg := List.find?_some hf
    have hval : ∃ n, invFieldValue r.available = some n := by
      unfold invRowGoodFor at hg
      rcases hv : invFieldValue r.available with _ | n
      · rw [hv] at hg
        simp at hg
      · exact ⟨n, rfl⟩
    obtain ⟨n, hn⟩ := hval
    rw [Option.or_some, Option.some_bind, hn, Option.or_some]
  | none =>
    rw [Option.none_or, Option.none_bind, Option.none_or]
    by_cases hp : invRowGoodFor sku row = true
    · rw [List.find?_cons_of_pos _ hp, if_pos hp, Option.some_bind]
    · rw [List.find?_cons_of_neg _ (by simpa using hp), if_neg hp]
      rfl

theorem pyIntOfField_typeError_iff (f : RowField) :
    pyIntOfField f = IntResult.typeError ↔ f = RowField.null := by
  cases f with
  | missing => simp [pyIntOfField]
  | null => simp [pyIntOfField]
  | str s =>
    simp only [pyIntOfField]
    cases hps : pyParseInt s <;> simp

theorem parse_inventory_rows_cons (row : InventoryRow) (rest : List InventoryRow)
    (acc : List (String × Int)) :
    parse_inventory_rows (row :: rest) acc =
      match pyIntOfField row.available with
      | .typeError => none
      | .valueError => parse_inventory_rows rest acc
      | .ok n =>
        match row.sku with
        | RowField.str s =>
          if s ≠ "" ∧ 0 ≤ n then parse_inventory_rows rest (pyDictSet acc s n)
          else parse_inventory_rows rest acc
        | _ => parse_inventory_rows rest acc := rfl

theorem parse_inventory_rows_char (rows : List InventoryRow) :
    ∀ acc : List (String × Int),
      (∀ row ∈ rows, row.available ≠ RowField.null) →
      ∃ m, parse_inventory_rows rows acc = some m ∧
        ∀ sku, dictGet m sku =
          (specInvLookup rows sku).or (dictGet acc sku) := by
  induction rows with
  | nil =>
    intro acc _
    exact ⟨acc, rfl, fun sku => by rw [specInvLookup_nil, Option.none_or]⟩
  | cons row rest ih =>
    intro acc hnn
    have hrow : row.available ≠ RowField.null := hnn row (List.mem_cons_self _ _)
    have hnn' : ∀ r ∈ rest, r.available ≠ RowField.null :=
      fun r hr => hnn r (List.mem_cons_of_mem _ hr)
    cases hq : pyIntOfField row.available with
    | typeError => exact absurd ((pyIntOfField_typeError_iff _).mp hq) hrow
    | valueError =>
      obtain ⟨m, hm, hc⟩ := ih acc hnn'
      refine ⟨m, ?_, ?_⟩
      · rw [parse_inventory_rows_cons, hq]
        exact hm
      · intro sku
        have hgood : invRowGoodFor sku row = false := by
          unfold invRowGoodFor invFieldValue
          rw [hq]
          simp
        rw [hc sku, specInvLookup_cons, hgood, if_neg (by simp), Option.or_none]
    | ok n =>
      cases hsku : row.sku with
      | missing =>
        obtain ⟨m, hm, hc⟩ := ih acc hnn'
        refine ⟨m, ?_, ?_⟩
        · rw [parse_inventory_rows_cons, hq, hsku]
          exact hm
        · intro sku
          have hgood : invRowGoodFor sku row = false := by
            unfold invRowGoodFor
            rw [hsku]
            simp [RowField.truthy]
          rw [hc sku, specInvLookup_cons, hgood, if_neg (by simp), Option.or_none]
      | null =>
        obtain ⟨m, hm, hc⟩ := ih acc hnn'
        refine ⟨m, ?_, ?_⟩
        · rw [parse_inventory_rows_cons, hq, hsku]
          exact hm
        · intro sku
          have hgood : invRowGoodFor sku row = false := by
            unfold invRowGoodFor
            rw [hsku]
            simp [RowField.truthy]
          rw [hc sku, specInvLookup_cons, hgood, if_neg (by simp), Option.or_none]
      | str s =>
        by_cases hcond : s ≠ "" ∧ 0 ≤ n
        · obtain ⟨m, hm, hc⟩ := ih (pyDictSet acc s n) hnn'
          refine ⟨m, ?_, ?_⟩
          · rw [parse_inventory_rows_cons, hq, hsku]
            show (if s ≠ "" ∧ 0 ≤ n then parse_inventory_rows rest (pyDictSet acc s n)
              else parse_inventory_rows rest acc) = some m
            rw [if_pos hcond]
            exact hm
          · intro sku
            rw [hc sku, specInvLookup_cons, Option.or_assoc]
            have hval : invFieldValue row.available = some n := by
              unfold invFieldValue
              rw [hq]
            rw [dictGet_pyDictSet]
            by_cases hs : s = sku
            · subst hs
              have hgood : invRowGoodFor s row = true := by
                unfold invRowGoodFor RowField.truthy
                rw [hsku, hval]
                simp [hcond.1, hcond.2]
            
              rw [if_pos rfl, hgood, if_pos rfl, hval, Option.or_some]
            · have hbeq : (RowField.str s == RowField.str sku) = false := by
                simp [hs]
              have hgood : invRowGoodFor sku row = false := by
                unfold invRowGoodFor
                rw [hsku, hbeq]
                simp
              rw [if_neg hs, hgood, if_neg (by simp), Option.none_or]
        · obtain ⟨m, hm, hc⟩ := ih acc hnn'
          refine ⟨m, ?_, ?_⟩
          · rw [parse_inventory_rows_cons, hq, hsku]
            show (if s ≠ "" ∧ 0 ≤ n then parse_inventory_rows rest (pyDictSet acc s n)
              else parse_inventory_rows rest acc) = some m
            rw [if_neg hcond]
            exact hm
          · intro sku
            have hgood : invRowGoodFor sku row = false := by
              unfold invRowGoodFor invFieldValue RowField.truthy
              rw [hq, hsku]
              rcases not_and_or.mp hcond with h | h
              · have hse : s = "" := not_not.mp h
                simp [hse]
              · simp [h]
            rw [hc sku, specInvLookup_cons, hgood, if_neg (by simp), Option.or_none]

/-- C5 (amended): provided no row carries a None available value (such a
row aborts the whole parse, see C7), the snapshot maps each sku to the
available quantity of the last row for that sku whose sku is non-empty
and whose available field yields a non-negative integer — where a
missing available column yields the parser default 0 and is recorded,
not skipped; later valid rows overwrite earlier ones (last-wins), and
rows with negative or string-unparsable quantity leave the mapping
unchanged. -/
theorem C5_inventory_last_wins (rows : List InventoryRow)
    (hnn : ∀ row ∈ rows, row.available ≠ RowField.null) :
    ∃ m, parse_inventory_data (some rows) = some m ∧
      ∀ sku, dictGet m sku = specInvLookup rows sku := by
  obtain ⟨m, hm, hc⟩ := parse_inventory_rows_char rows [] hnn
  refine ⟨m, hm, fun sku => ?_⟩
  rw [hc sku]
  exact Option.or_none

/-- Witness for the amended C5: two valid rows for the same sku,
last-wins gives 30. -/
theorem C5_witness :
    ∃ m, parse_inventory_data
        (some [⟨RowField.str "A", RowField.str "50"⟩,
               ⟨RowField.str "A", RowField.str "30"⟩]) = some m ∧
      ∀ sku, dictGet m sku =
        specInvLookup [⟨RowField.str "A", RowField.str "50"⟩,
          ⟨RowField.str "A", RowField.str "30"⟩] sku :=
  C5_inventory_last_wins
    [⟨RowField.str "A", RowField.str "50"⟩, ⟨RowField.str "A", RowField.str "30"⟩]
    (by decide)

/-- The reading the claim itself gives to an available value: a string
that parses to an integer (a missing column does not "parse"). -/
def invStringValue : RowField → Option Int
  | .str s => pyParseInt s
  | _ => none

/-- The admissibility test of the claim itself for a binding of `sku`. -/
def invRowGoodForStrict (sku : String) (row : InventoryRow) : Bool :=
  (row.sku == RowField.str sku) && row.sku.truthy &&
    (match invStringValue row.available with
     | some n => decide (0 ≤ n)
     | none => false)

/-- The lookup described by the claim: the available quantity of the
last row for `sku`
whose sku is present and whose available quantity parses to a
non-negative integer. -/
def specInvLookupStrict (rows : List InventoryRow) (sku : String) : Option Int :=
  (rows.reverse.find? (invRowGoodForStrict sku)).bind
    (fun row => invStringValue row.available)

/-- C5 counterexample: a single row whose available column is missing —
its quantity does not parse, so under the claim the mapping should be
left unchanged (no binding for "A"); the code instead records the
dict.get default 0 for "A". -/
theorem C5_counterexample :
    parse_inventory_data (some [⟨RowField.str "A", RowField.missing⟩]) =
        some [("A", 0)] ∧
      specInvLookupStrict [⟨RowField.str "A", RowField.missing⟩] "A" = none ∧
      dictGet [("A", (0 : Int))] "A" ≠
        specInvLookupStrict [⟨RowField.str "A", RowField.missing⟩] "A" :=
  ⟨rfl, rfl, by decide⟩

/-! ### Run-level outcomes (C6) and the TypeError escape (C7) -/

/-- A well-formed inventory row used in run-level examples. -/
def exInvRow : InventoryRow := ⟨RowField.str "A", RowField.str "50"⟩

/-- C6 (amended): an unreadable source makes the run produce no
recommendation list (`none`); but EITHER readable source with zero
valid records is treated the same way by the run — the `__main__`
truthiness guard conflates an empty mapping with a failed parse, so no
list (not an empty list) is produced, whether the empty mapping came
from the sales source or from the inventory source.  The empty/failed
distinction exists only below the run boundary: a readable sales source
always parses to `some` mapping (never the failure value `none`), and
the engine itself maps an empty sales mapping, or an empty inventory
mapping, to an empty list. -/
theorem C6_run_failure_vs_empty (fromiso : String → Option PyDateTime)
    (salesSrc : Option (List SalesRow)) (invSrc : Option (List InventoryRow))
    (salesRows : List SalesRow) (invRows : List InventoryRow)
    (invData : List (String × Int)) (salesData : VelocityMap) (l s c : Int) :
    runMain fromiso none invSrc l s c = none ∧
      runMain fromiso salesSrc none l s c = none ∧
      (parse_sales_rows fromiso salesRows = [] →
        runMain fromiso (some salesRows) invSrc l s c = none) ∧
      (parse_inventory_data (some invRows) = some [] →
        runMain fromiso salesSrc (some invRows) l s c = none) ∧
      parse_sales_data fromiso (some salesRows) ≠ none ∧
      generate_restock_recommendations [] invData l s c = [] ∧
      generate_restock_recommendations salesData [] l s c = [] := by
  refine ⟨rfl, ?_, ?_, ?_, ?_, ?_, ?_⟩
  · unfold runMain
    cases parse_sales_data fromiso salesSrc <;> rfl
  · intro hempty
    unfold runMain
    have hps : parse_sales_data fromiso (some salesRows) = some [] := by
      show some (parse_sales_rows fromiso salesRows) = some []
      rw [hempty]
    rw [hps]
    cases parse_inventory_data invSrc with
    | none => rfl
    | some idt =>
      dsimp only
      rw [if_neg (by simp)]
  · intro hinv
    unfold runMain
    rw [hinv]
    cases parse_sales_data fromiso salesSrc with
    | none => rfl
    | some sd =>
      dsimp only
      rw [if_neg (by simp)]
  · unfold parse_sales_data
    simp
  · unfold generate_restock_recommendations
    rw [if_pos (Or.inl rfl)]
  · unfold generate_restock_recommendations
    rw [if_pos (Or.inr rfl)]

/-- An inventory row with an unparsable available string: readable but
yielding no valid record. -/
def exBadInvRow : InventoryRow := ⟨RowField.str "A", RowField.str "x"⟩

/-- Witness for the amended C6 at concrete sources, exercising the
zero-valid-records case separately for the sales source and for the
inventory source. -/
theorem C6_witness :
    runMain exFromiso none (some [exInvRow]) 21 10 45 = none ∧
      runMain exFromiso (some [exSalesRow]) none 21 10 45 = none ∧
      runMain exFromiso (some []) (some [exInvRow]) 21 10 45 = none ∧
      runMain exFromiso (some [exSalesRow]) (some [exBadInvRow]) 21 10 45 = none ∧
      parse_sales_data exFromiso (some []) ≠ none ∧
      generate_restock_recommendations [] [("A", 50)] 21 10 45 = [] ∧
      generate_restock_recommendations exSales [] 21 10 45 = [] := by
  have h := C6_run_failure_vs_empty exFromiso (some [exSalesRow])
    (some [exInvRow]) [] [exBadInvRow] [("A", 50)] exSales 21 10 45
  exact ⟨h.1, h.2.1, h.2.2.1 rfl, h.2.2.2.1 rfl, h.2.2.2.2.1,
    h.2.2.2.2.2.1, h.2.2.2.2.2.2⟩

/-- C6 counterexample: sales source readable but yielding zero valid
records, inventory readable and non-empty — the claim says the run
produces an empty recommendation list, but the run produces no list at
all (`none`), indistinguishable from the failure outcome. -/
theorem C6_counterexample :
    runMain exFromiso (some []) (some [exInvRow]) 21 10 45 = none ∧
      runMain exFromiso (some []) (some [exInvRow]) 21 10 45 ≠
        some ([] : List RestockRecommendation) := by
  have h : runMain exFromiso (some []) (some [exInvRow]) 21 10 45 = none := rfl
  exact ⟨h, fun hc => Option.noConfusion (h ▸ hc)⟩

/-- C7: the code evaluated at the failing input.  The middle row has a
None available value (a short CSV row); Python `int(None)` raises
`TypeError`, which the row loop does not catch, so the entire inventory
parse fails (`None`) and the valid rows around it are lost.  Without the
malformed row the same input parses fine — the claim that a single
malformed row is merely skipped is the documented intent, and the code
contradicts it. -/
theorem C7_typeerror_aborts_inventory_parse :
    parse_inventory_data
        (some [⟨RowField.str "A", RowField.str "5"⟩,
               ⟨RowField.str "B", RowField.null⟩,
               ⟨RowField.str "C", RowField.str "7"⟩]) = none ∧
      parse_inventory_data
        (some [⟨RowField.str "A", RowField.str "5"⟩,
               ⟨RowField.str "C", RowField.str "7"⟩]) =
        some [("A", 5), ("C", 7)] :=
  ⟨rfl, rfl⟩
